import Mathlib

/-!
Verification of `mor/reduction/reduceModel.py` (ModelOrderReduction pipeline
orchestrator).  The Python 2 source is shallowly embedded: files are lists of
lines (each a `List Char`), stateful methods are explicit state-passing
functions, and Python exceptions are the `Except PyErr` monad.  Division on
actuator parameters is modelled on `ℚ` (the code accepts floats; on the integer
inputs appearing in the claims true division and Python 2 floor division
coincide, and `int()` is truncation toward zero).
-/

set_option maxRecDepth 10000

/-- Kinds of Python exception raised (or intended) by the modelled code paths. -/
inductive PyErr where
  | valueError
  | typeError
  | indexError
  | keyError
  | ioError
  | zeroDivisionError
  deriving DecidableEq, Repr

deriving instance DecidableEq for Except

/-- Truncation toward zero: Python's `int()` applied to a (rational) number. -/
def pyTruncQ (q : ℚ) : Int := if q < 0 then -(Rat.floor (-q)) else Rat.floor q

/-- Mathematical ceiling on rationals: Python's `math.ceil` (composed with `int()`). -/
def pyCeilQ (q : ℚ) : Int := -(Rat.floor (-q))

/-- Concatenation of a list of files (each a list of lines), in order. -/
def concatAll : List (List α) → List α
  | [] => []
  | x :: xs => x ++ concatAll xs

/- ## PackageBuilder.cleanStateFile / copyAndCleanState (reduceModel.py lines 237-288) -/

/-- Does a line contain the substring `T=`?  Models Python's
`line.find of the time marker != -1` test in `cleanStateFile`. -/
def hasTEq : List Char → Bool
  | [] => false
  | 'T' :: '=' :: _ => true
  | _ :: rest => hasTEq rest

/-- The replacement line `cleanStateFile` writes for the `counter`-th marker:
`'T= ' + str(periodSaveGIE*counter)`. -/
def markerLine (periodSaveGIE : Int) (counter : Nat) : List Char :=
  'T' :: '=' :: ' ' :: (toString (periodSaveGIE * (counter : Int))).toList

/-- `PackageBuilder.cleanStateFile`: rewrite, in place, every line containing
`T=` to the next periodic stamp; the counter starts at 1 and advances only on
marker lines.  Non-marker lines are printed back unchanged. -/
def cleanStateFile (periodSaveGIE : Int) : Nat → List (List Char) → List (List Char)
  | _, [] => []
  | counter, line :: rest =>
    if hasTEq line then
      markerLine periodSaveGIE counter :: cleanStateFile periodSaveGIE (counter + 1) rest
    else
      line :: cleanStateFile periodSaveGIE counter rest

/-- One launcher result directory: the job's `stateFile.state` contents plus its
auxiliary per-name gie files (`copyFileIntoAnother` sources). -/
structure JobResult where
  stateFile : List (List Char)
  gieFiles : List (String × List (List Char))
  deriving DecidableEq

/-- `PackageBuilder.copyAndCleanState`: delete stale outputs, append every job's
state file into one output in submission order (`copyFileIntoAnother` on each
`res` of `results`, a missing source being printed and skipped), likewise
concatenate each named auxiliary gie file, then renumber the time markers of
the state output with `cleanStateFile`. -/
def copyAndCleanState (results : List JobResult) (periodSaveGIE : Int)
    (gie : Option (List String)) : List (List Char) × List (String × List (List Char)) :=
  (cleanStateFile periodSaveGIE 1 (concatAll (results.map JobResult.stateFile)),
   match gie with
   | none => []
   | some names =>
     names.map (fun n => (n, concatAll (results.map (fun r => (r.gieFiles.lookup n).getD [])))))

/- ## ReductionAnimations.generateListOfPhase (lines 156-172) -/

/-- The Python binary literal of `i` (format spec `b`: no leading zeros, a
single `0` for zero), each character turned back into its digit, as the code
does with `int` on each character. -/
def binVal (i : Nat) : List Nat := (Nat.toDigits 2 i).map (fun c => c.toNat - 48)

/-- Python list element assignment with the negative-index convention: a
negative index counts from the end of the list, and an index that is still out
of range raises `IndexError` (modelled as `none`). -/
def pySet (l : List Nat) (idx : Int) (a : Nat) : Option (List Nat) :=
  let k : Int := if idx < 0 then idx + l.length else idx
  if 0 ≤ k ∧ k < (l.length : Int) then some (l.set k.toNat a) else none

/-- One row of `phaseNum`: start from `nbActuator` zeros and write the binary
digits of `i` at offset `j + nbActuator - len(binVal)`, exactly as the inner
loop of `generateListOfPhase` indexes the row. -/
def phaseRow (nbActuator i : Nat) : Option (List Nat) :=
  (binVal i).enum.foldlM
    (fun row jb => pySet row ((jb.1 : Int) + (nbActuator : Int) - ((binVal i).length : Int)) jb.2)
    (List.replicate nbActuator 0)

/-- `ReductionAnimations.generateListOfPhase`: build the right-aligned binary
row for every `i` below `nbPossibility`, then emit the rows grouped by row sum
`0..nbActuator`, keeping index order inside each group.  `none` models the
`IndexError` escaping the row construction. -/
def generateListOfPhase (nbPossibility nbActuator : Nat) : Option (List (List Nat)) :=
  ((List.range nbPossibility).mapM (fun i => phaseRow nbActuator i)).map
    (fun phaseNum =>
      (List.range (nbActuator + 1)).foldr
        (fun nb acc => phaseNum.filter (fun row => row.sum == nb) ++ acc) [])

/-- All bit vectors of length `n` (order immaterial; used to state that the
phase enumeration contains every vector exactly once). -/
def allVecs : Nat → List (List Nat)
  | 0 => [[]]
  | n + 1 => (allVecs n).foldr (fun v acc => (0 :: v) :: (1 :: v) :: acc) []

/-- Integer value of a bit vector read as base 2 (most significant bit first). -/
def phaseVal (v : List Nat) : Nat := v.foldl (fun a b => 2 * a + b) 0

/-- Strict order on phase vectors: lower Hamming weight first, ties broken by
smaller base-2 value. -/
def phaseLt (a b : List Nat) : Bool :=
  decide (a.sum < b.sum) || (decide (a.sum = b.sum) && decide (phaseVal a < phaseVal b))

/-- Is the list strictly increasing for `phaseLt` (pairwise over all pairs)? -/
def strictChain : List (List Nat) → Bool
  | [] => true
  | a :: rest => rest.all (fun b => phaseLt a b) && strictChain rest

/- ## PackageBuilder.checkNodeNbr (lines 218-235) -/

/-- Python `str.strip()`: remove whitespace from both ends. -/
def pyStrip (l : List Char) : List Char :=
  ((l.dropWhile Char.isWhitespace).reverse.dropWhile Char.isWhitespace).reverse

/-- Fuelled worker for whitespace splitting (fuel bounds the recursion by the
length of the list). -/
def splitWSF : Nat → List Char → List (List Char)
  | 0, _ => []
  | _ + 1, [] => []
  | fuel + 1, c :: rest =>
    if c.isWhitespace then splitWSF fuel rest
    else (c :: rest.takeWhile (fun x => !x.isWhitespace))
         :: splitWSF fuel (rest.dropWhile (fun x => !x.isWhitespace))

/-- Python `str.split()` with no argument: split on runs of whitespace,
discarding empty fields. -/
def splitWS (l : List Char) : List (List Char) := splitWSF l.length l

/-- The value of a non-empty all-digit character list. -/
def digitsToNat (l : List Char) : Option Nat :=
  if l ≠ [] ∧ l.all Char.isDigit then
    some (l.foldl (fun a c => 10 * a + (c.toNat - 48)) 0)
  else none

/-- Python `int()` on a whitespace-free token: optional sign followed by a
non-empty digit string; anything else raises `ValueError` (`none`). -/
def pyIntOfTok : List Char → Option Int
  | '-' :: rest => (digitsToNat rest).map (fun n => -(n : Int))
  | '+' :: rest => (digitsToNat rest).map (fun n => (n : Int))
  | l => (digitsToNat l).map (fun n => (n : Int))

/-- `PackageBuilder.checkNodeNbr`: read the first line of the modes file, strip
it, split it on whitespace and return `int` of the second token.  An absent
file (`none`) raises `IOError`, which the method catches and merely prints,
leaving the initial sentinel `-1` to be returned; a first line with fewer than
two tokens raises `IndexError` (re-raised by the bare `except`); a non-integer
second token raises `ValueError` at the final `int()` conversion. -/
def checkNodeNbr (modesFile : Option (List (List Char))) : Except PyErr Int :=
  match modesFile with
  | none => Except.ok (-1)
  | some lines =>
    match (splitWS (pyStrip (lines.headD []))).get? 1 with
    | none => Except.error PyErr.indexError
    | some tok =>
      match pyIntOfTok tok with
      | none => Except.error PyErr.valueError
      | some v => Except.ok v

/- ## ReduceModel.phase3 / phase4 mode-count validation (lines 731-749, 827-840) -/

/-- The mode-count resolution and validation slice shared by `ReduceModel.phase3`
and `ReduceModel.phase4`: a falsy request (`None` or `0`) falls back to the
stored `reductionParam.nbrOfModes`; a missing modes file raises `IOError`;
the available count is read with `checkNodeNbr`; a resolved value equal to the
`-1` sentinel becomes the available count; finally a value `<= 0` or greater
than the available count raises `ValueError`. -/
def resolveNbrOfModes (requested : Option Int) (stored : Int)
    (modesFile : Option (List (List Char))) : Except PyErr Int :=
  let n1 : Int :=
    match requested with
    | none => stored
    | some v => if v = 0 then stored else v
  match modesFile with
  | none => Except.error PyErr.ioError
  | some lines =>
    match checkNodeNbr (some lines) with
    | Except.error e => Except.error e
    | Except.ok nbrOfModesPossible =>
      let n2 : Int := if n1 = 0 then stored else n1
      let n3 : Int := if n2 = -1 then nbrOfModesPossible else n2
      if n3 ≤ 0 ∨ nbrOfModesPossible < n3 then Except.error PyErr.valueError
      else Except.ok n3

/- ## ReductionAnimations.setNbIteration (lines 142-154) -/

/-- The `params` dict of one `ObjToAnimate`, restricted to the three keys the
orchestrator reads; a missing key is `none` and raises `KeyError` on access. -/
structure AnimParams where
  incr : Option ℚ
  incrPeriod : Option ℚ
  rangeOfAction : Option ℚ
  deriving DecidableEq

/-- The loop of `setNbIteration`: for each animated object carrying both an
`incr` and an `incrPeriod` parameter, compute
`((rangeOfAction/incr)-1)*incrPeriod + 2*incrPeriod - 1` (reading
`rangeOfAction` raises `KeyError` when absent) and keep the ceiling of the
running maximum; objects lacking either key contribute `tmp = 0`. -/
def nbIterLoop : Int → List AnimParams → Except PyErr Int
  | cur, [] => Except.ok cur
  | cur, obj :: rest =>
    match obj.incr, obj.incrPeriod with
    | some inc, some per =>
      match obj.rangeOfAction with
      | none => Except.error PyErr.keyError
      | some rng =>
        if inc = 0 then Except.error PyErr.zeroDivisionError
        else
          let tmp : ℚ := ((rng / inc) - 1) * per + 2 * per - 1
          if (cur : ℚ) < tmp then nbIterLoop (pyCeilQ tmp) rest else nbIterLoop cur rest
    | _, _ => if (cur : ℚ) < 0 then nbIterLoop 0 rest else nbIterLoop cur rest

/-- `ReductionAnimations.setNbIteration`: a truthy `nbIterations` argument
(anything but `None` or `0`) is used verbatim, ceiling-rounded; otherwise the
iteration budget is the loop maximum over all animated objects.  `cur` is the
value of `self.nbIterations` on entry (0 in the constructor). -/
def setNbIteration (listObjToAnimate : List AnimParams) (cur : Int)
    (nbIterations : Option ℚ) : Except PyErr Int :=
  match nbIterations with
  | some v => if v = 0 then nbIterLoop cur listObjToAnimate else Except.ok (pyCeilQ v)
  | none => nbIterLoop cur listObjToAnimate

/- ## ReductionParam.setNbTrainingSet and ReduceModel.__init__ (lines 374-378, 520-523) -/

/-- `ReductionParam.setNbTrainingSet`: `int(rangeOfAction/incr)`. -/
def setNbTrainingSet (rangeOfAction incr : ℚ) : Int := pyTruncQ (rangeOfAction / incr)

/-- The constructor call
`setNbTrainingSet(listObjToAnimate[0].params[rangeOfAction key], listObjToAnimate[0].params[incr key])`:
indexing an empty list raises `IndexError`, a missing key raises `KeyError`,
and only the first element is ever consulted. -/
def deriveNbTrainingSet : List AnimParams → Except PyErr Int
  | [] => Except.error PyErr.indexError
  | obj :: _ =>
    match obj.rangeOfAction, obj.incr with
    | some r, some inc =>
      if inc = 0 then Except.error PyErr.zeroDivisionError
      else Except.ok (setNbTrainingSet r inc)
    | _, _ => Except.error PyErr.keyError

/- ## ReductionParam.addParamWrapper (lines 380-446) -/

/-- A value stored in one of the parameter sub-config dicts. -/
inductive PVal where
  | s (v : String)
  | i (v : Int)
  | b (v : Bool)
  deriving DecidableEq

/-- One sub-config dict, as an ordered key-value list. -/
abbrev Config := List (String × PVal)

/-- The three sub-configs of a parameter wrapper. -/
structure WrapperCfg where
  paramForcefield : Config
  paramMORMapping : Config
  paramMappedMatrixMapping : Config
  deriving DecidableEq

/-- `self.paramWrapper`: the reduced node path paired with its three sub-configs. -/
abbrev ParamWrapper := String × WrapperCfg

/-- The fields of `ReductionParam` that `addParamWrapper` and `setFilesName`
read or write. -/
structure ReductionParam where
  dataDir : String
  dataFolder : String
  modesFileName : String
  periodSaveGIE : Int
  nbTrainingSet : Int
  massName : String
  gieFilesNames : List String
  RIDFilesNames : List String
  weightsFilesNames : List String
  savedElementsFilesNames : List String
  listActiveNodesFilesNames : List String
  paramWrapper : Option ParamWrapper
  deriving DecidableEq

/-- `defaultParamPrepare` of `addParamWrapper` (training stage): absolute data
paths and error-indicator capture parameters. -/
def defaultParamPrepare (st : ReductionParam) (nodeToReduce : String) : WrapperCfg :=
  { paramForcefield :=
      [("prepareECSW", PVal.b true),
       ("modesPath", PVal.s (st.dataDir ++ st.modesFileName)),
       ("periodSaveGIE", PVal.i st.periodSaveGIE),
       ("nbTrainingSet", PVal.i st.nbTrainingSet)],
    paramMORMapping :=
      [("input", PVal.s "@../MechanicalObject"),
       ("modesPath", PVal.s (st.dataDir ++ st.modesFileName))],
    paramMappedMatrixMapping :=
      [("nodeToParse", PVal.s ("@." ++ nodeToReduce)),
       ("template", PVal.s "Vec1d,Vec1d"),
       ("object1", PVal.s "@./MechanicalObject"),
       ("object2", PVal.s "@./MechanicalObject"),
       ("timeInvariantMapping1", PVal.b true),
       ("timeInvariantMapping2", PVal.b true),
       ("performECSW", PVal.b false)] }

/-- `defaultParamPerform` of `addParamWrapper` (production stage): relocatable
relative paths, hyper-reduction enabled, precomputed mass referenced. -/
def defaultParamPerform (st : ReductionParam) (nodeToReduce : String) : WrapperCfg :=
  { paramForcefield :=
      [("performECSW", PVal.b true),
       ("modesPath", PVal.s (st.dataFolder ++ st.modesFileName)),
       ("RIDPath", PVal.s st.dataFolder),
       ("weightsPath", PVal.s st.dataFolder)],
    paramMORMapping :=
      [("input", PVal.s "@../MechanicalObject"),
       ("modesPath", PVal.s (st.dataFolder ++ st.modesFileName))],
    paramMappedMatrixMapping :=
      [("nodeToParse", PVal.s ("@." ++ nodeToReduce)),
       ("template", PVal.s "Vec1d,Vec1d"),
       ("object1", PVal.s "@./MechanicalObject"),
       ("object2", PVal.s "@./MechanicalObject"),
       ("timeInvariantMapping1", PVal.b true),
       ("timeInvariantMapping2", PVal.b true),
       ("listActiveNodesPath", PVal.s (st.dataFolder ++ "listActiveNodes.txt")),
       ("performECSW", PVal.b true),
       ("usePrecomputedMass", PVal.b true),
       ("precomputedMassPath", PVal.s (st.dataFolder ++ st.massName))] }

/-- Python truthiness of an optional dict argument: `None` and the empty dict
are falsy. -/
def pyTruthyCfg (o : Option Config) : Bool :=
  match o with
  | none => false
  | some c => !c.isEmpty

/-- `ReductionParam.addParamWrapper`: when all three sub-config arguments are
truthy the body is `pass`, so `self.paramWrapper` keeps its previous value and
is returned; otherwise the stage default (prepare when `prepareECSW`, perform
otherwise) is stored and returned.  Returns the updated state and the value of
the method's `return self.paramWrapper`. -/
def addParamWrapper (st : ReductionParam) (nodeToReduce : String) (prepareECSW : Bool)
    (paramForcefield paramMappedMatrixMapping paramMORMapping : Option Config) :
    ReductionParam × Option ParamWrapper :=
  if pyTruthyCfg paramForcefield && pyTruthyCfg paramMappedMatrixMapping
      && pyTruthyCfg paramMORMapping then
    (st, st.paramWrapper)
  else
    let pw : ParamWrapper :=
      if prepareECSW then (nodeToReduce, defaultParamPrepare st nodeToReduce)
      else (nodeToReduce, defaultParamPerform st nodeToReduce)
    ({ st with paramWrapper := some pw }, some pw)

/- ## ReductionParam.setFilesName (lines 448-458) -/

/-- The trailing path segment of the wrapped node path (`path.split(slash)[-1]`). -/
def nodeNameOf (pw : ParamWrapper) : String := (pw.1.splitOn "/").getLastD ""

/-- `ReductionParam.setFilesName`: unpack `self.paramWrapper` (a `None` wrapper
raises `TypeError`), derive the node name from the trailing path segment, and
append one name per file kind to each of the five name lists. -/
def setFilesName (st : ReductionParam) : Except PyErr ReductionParam :=
  match st.paramWrapper with
  | none => Except.error PyErr.typeError
  | some pw =>
    let nodeName := nodeNameOf pw
    Except.ok { st with
      gieFilesNames :=
        st.gieFilesNames ++ ["HyperReducedFEMForceField_" ++ nodeName ++ "_Gie.txt"],
      RIDFilesNames := st.RIDFilesNames ++ ["RID_" ++ nodeName ++ ".txt"],
      weightsFilesNames := st.weightsFilesNames ++ ["weight_" ++ nodeName ++ ".txt"],
      savedElementsFilesNames :=
        st.savedElementsFilesNames ++ ["elmts_" ++ nodeName ++ ".txt"],
      listActiveNodesFilesNames :=
        st.listActiveNodesFilesNames ++ ["listActiveNodes_" ++ nodeName ++ ".txt"] }

/-- `k` successive calls of `setFilesName` on the same object. -/
def iterFilesName : Nat → ReductionParam → Except PyErr ReductionParam
  | 0, st => Except.ok st
  | k + 1, st => (setFilesName st).bind (iterFilesName k)

/-- The state after `k` calls of `setFilesName`: each list extended by `k`
copies of its derived name (closed form used in the idempotence proof). -/
def appendNamesK (st : ReductionParam) (pw : ParamWrapper) (k : Nat) : ReductionParam :=
  { st with
    gieFilesNames :=
      st.gieFilesNames
        ++ List.replicate k ("HyperReducedFEMForceField_" ++ nodeNameOf pw ++ "_Gie.txt"),
    RIDFilesNames := st.RIDFilesNames ++ List.replicate k ("RID_" ++ nodeNameOf pw ++ ".txt"),
    weightsFilesNames :=
      st.weightsFilesNames ++ List.replicate k ("weight_" ++ nodeNameOf pw ++ ".txt"),
    savedElementsFilesNames :=
      st.savedElementsFilesNames ++ List.replicate k ("elmts_" ++ nodeNameOf pw ++ ".txt"),
    listActiveNodesFilesNames :=
      st.listActiveNodesFilesNames
        ++ List.replicate k ("listActiveNodes_" ++ nodeNameOf pw ++ ".txt") }

/- ## ReduceModel.setListSofaScene (lines 545-596) -/

/-- One entry of `self.listSofaScene`: the template-variable mapping handed to
one launcher invocation. -/
structure SceneJob where
  originalScene : String
  listObjToAnimate : List AnimParams
  phase : List Nat
  periodSaveGIE : Int
  paramWrapper : Option ParamWrapper
  nbIterations : Int
  phaseToSave : List Nat
  deriving DecidableEq

/-- The fields of `ReduceModel` that `setListSofaScene` reads or writes. -/
structure RMState where
  originalScene : String
  listObjToAnimate : List AnimParams
  nbPossibility : Nat
  phaseNumClass : List (List Nat)
  periodSaveGIE : Int
  nbIterations : Int
  paramWrapper : Option ParamWrapper
  phaseToSave : Option (List Nat)
  phaseToSaveIndex : Nat
  listSofaScene : List SceneJob
  deriving DecidableEq

/-- The `phaseToSave` default of `setListSofaScene`: a falsy value (`None` or
the empty list) is replaced by `[0]*len(phaseNumClass[0])`, indexing an empty
`phaseNumClass` raising `IndexError`. -/
def resolvePhaseToSave (phaseToSave : Option (List Nat)) (phaseNumClass : List (List Nat)) :
    Except PyErr (List Nat) :=
  if phaseToSave.getD [] = [] then
    match phaseNumClass with
    | [] => Except.error PyErr.indexError
    | h :: _ => Except.ok (List.replicate h.length 0)
  else Except.ok (phaseToSave.getD [])

/-- The job dict appended for phase index `i`. -/
def sceneJobOf (st : RMState) (pts : List Nat) (i : Int) : SceneJob :=
  { originalScene := st.originalScene,
    listObjToAnimate := st.listObjToAnimate,
    phase := st.phaseNumClass.getD i.toNat [],
    periodSaveGIE := st.periodSaveGIE,
    paramWrapper := st.paramWrapper,
    nbIterations := st.nbIterations,
    phaseToSave := pts }

/-- The loop of `setListSofaScene` over the selected phase indices.  An index
outside `[0, nbPossibility)` executes
`raise ValueError(message + phasesToExecute)`; concatenating the `str` message
with the `list` argument itself raises `TypeError`, so that is the exception
that escapes.  A selected phase equal to `phaseToSave` updates
`phaseToSaveIndex` to `phaseNumClass.index(phaseToSave)`. -/
def sceneLoop (st : RMState) (pts : List Nat) :
    List SceneJob → Nat → List Int → Except PyErr (List SceneJob × Nat)
  | jobs, idx, [] => Except.ok (jobs, idx)
  | jobs, idx, i :: rest =>
    if (st.nbPossibility : Int) ≤ i ∨ i < 0 then Except.error PyErr.typeError
    else
      let idx2 :=
        if pts = st.phaseNumClass.getD i.toNat []
        then st.phaseNumClass.findIdx (fun x => x == pts)
        else idx
      sceneLoop st pts (jobs ++ [sceneJobOf st pts i]) idx2 rest

/-- `ReduceModel.setListSofaScene`: reset `self.listSofaScene` to the empty
list, default a falsy `phasesToExecute` to all of `range(nbPossibility)`,
default a falsy `phaseToSave`, then append one job dict per selected phase. -/
def setListSofaScene (st : RMState) (phasesToExecute : Option (List Int)) :
    Except PyErr RMState :=
  let phases : List Int :=
    if (phasesToExecute.getD []) = [] then
      (List.range st.nbPossibility).map (fun k => (k : Int))
    else phasesToExecute.getD []
  match resolvePhaseToSave st.phaseToSave st.phaseNumClass with
  | Except.error e => Except.error e
  | Except.ok pts =>
    match sceneLoop st pts [] st.phaseToSaveIndex phases with
    | Except.error e => Except.error e
    | Except.ok (jobs, idx) =>
      Except.ok { st with listSofaScene := jobs, phaseToSave := some pts, phaseToSaveIndex := idx }

/- ## Concrete instances used by the witnesses and counterexamples -/

/-- A first launcher result with three time markers in its state file. -/
def jobResA : JobResult :=
  { stateFile := ["T= 1", "1 2 3", "T= 2", "4 5", "T= 3"].map String.toList,
    gieFiles := [] }

/-- A second launcher result with three time markers in its state file. -/
def jobResB : JobResult :=
  { stateFile := ["T= 1", "7 8", "T= 2", "T= 3"].map String.toList,
    gieFiles := [] }

/-- The expected merged timeline of `jobResA` then `jobResB` with save period 6. -/
def mergedExample : List (List Char) :=
  ["T= 6", "1 2 3", "T= 12", "4 5", "T= 18", "T= 24", "7 8", "T= 30", "T= 36"].map String.toList

/-- A concrete `ReductionParam` state as left by the constructor (no wrapper yet). -/
def rpExample : ReductionParam :=
  { dataDir := "/out/data/", dataFolder := "/data/", modesFileName := "modes.txt",
    periodSaveGIE := 6, nbTrainingSet := 8, massName := "mass_reduced.txt",
    gieFilesNames := [], RIDFilesNames := [], weightsFilesNames := [],
    savedElementsFilesNames := [], listActiveNodesFilesNames := [], paramWrapper := none }

/-- A concrete non-empty forcefield sub-config override. -/
def cfgF : Config := [("performECSW", PVal.b true)]

/-- A concrete non-empty mapped-matrix sub-config override. -/
def cfgM : Config := [("nodeToParse", PVal.s "@.model")]

/-- A concrete non-empty MOR-mapping sub-config override. -/
def cfgO : Config := [("input", PVal.s "@../MechanicalObject")]

/-- A concrete parameter wrapper for a nested node path. -/
def pwExample : ParamWrapper := ("model/node", defaultParamPrepare rpExample "model/node")

/-- `rpExample` with the wrapper installed, as after the constructor's
`addParamWrapper` call. -/
def rpWithWrapper : ReductionParam := { rpExample with paramWrapper := some pwExample }

/-- A concrete two-actuator `ReduceModel` state ready for `setListSofaScene`. -/
def stRM : RMState :=
  { originalScene := "original.py",
    listObjToAnimate := [⟨some 5, some 10, some 40⟩],
    nbPossibility := 4,
    phaseNumClass := [[0, 0], [0, 1], [1, 0], [1, 1]],
    periodSaveGIE := 6,
    nbIterations := 89,
    paramWrapper := none,
    phaseToSave := none,
    phaseToSaveIndex := 0,
    listSofaScene := [] }

/-- The marker lines a renumbering pass emits: `m` stamps whose counters start
at `k` and increase by one (modelled from the spec's "strictly increasing
integer k" wording, to be compared with `cleanStateFile`). -/
def markersFrom (p : Int) : Nat → Nat → List (List Char)
  | _, 0 => []
  | k, m + 1 => markerLine p k :: markersFrom p (k + 1) m

/-- Decidable bundle of the phase-enumeration properties: the enumeration
succeeds, has the announced length, is strictly (weight, value)-ordered, and
contains exactly the bit vectors of the actuator count's length. -/
def goodPhases (m n : Nat) : Bool :=
  match generateListOfPhase m n with
  | none => false
  | some l =>
    decide (l.length = m) && strictChain l
      && decide (∀ v ∈ allVecs n, v ∈ l) && decide (∀ v ∈ l, v ∈ allVecs n)

/- ## Theorems -/

theorem goodPhases_spec (m n : Nat) (h : goodPhases m n = true) :
    ∃ l, generateListOfPhase m n = some l
      ∧ l.length = m
      ∧ strictChain l = true
      ∧ (∀ v ∈ allVecs n, v ∈ l)
      ∧ (∀ v ∈ l, v ∈ allVecs n) := by
  unfold goodPhases at h
  cases heq : generateListOfPhase m n with
  | none => rw [heq] at h; cases h
  | some l =>
    rw [heq] at h
    simp only [Bool.and_eq_true, decide_eq_true_eq] at h
    exact ⟨l, rfl, h.1.1.1, h.1.1.2, h.1.2, h.2⟩

theorem hasTEq_markerLine (p : Int) (k : Nat) : hasTEq (markerLine p k) = true := rfl

theorem cleanStateFile_map_hasTEq (p : Int) (k : Nat) (ls : List (List Char)) :
    (cleanStateFile p k ls).map hasTEq = ls.map hasTEq := by
  induction ls generalizing k with
  | nil => rfl
  | cons l rest ih =>
    cases hl : hasTEq l with
    | true => simp [cleanStateFile, hl, hasTEq_markerLine, ih]
    | false => simp [cleanStateFile, hl, ih]

theorem cleanStateFile_filter_marker (p : Int) (k : Nat) (ls : List (List Char)) :
    (cleanStateFile p k ls).filter (fun l => hasTEq l) =
      markersFrom p k (ls.countP (fun l => hasTEq l)) := by
  induction ls generalizing k with
  | nil => rfl
  | cons l rest ih =>
    cases hl : hasTEq l with
    | true =>
      simp only [cleanStateFile, hl, if_true, List.countP_cons, if_pos]
      rw [List.filter_cons_of_pos (hasTEq_markerLine p k)]
      simp only [hl, Nat.add_one, markersFrom]
      rw [ih]
    | false =>
      simp only [cleanStateFile, hl, Bool.false_eq_true, if_false, List.countP_cons]
      rw [List.filter_cons_of_neg (by simp [hl])]
      simp [ih]

theorem cleanStateFile_filter_nonmarker (p : Int) (k : Nat) (ls : List (List Char)) :
    (cleanStateFile p k ls).filter (fun l => !hasTEq l) =
      ls.filter (fun l => !hasTEq l) := by
  induction ls generalizing k with
  | nil => rfl
  | cons l rest ih =>
    cases hl : hasTEq l with
    | true =>
      simp only [cleanStateFile, hl, if_true]
      rw [List.filter_cons_of_neg (by simp [hasTEq_markerLine]),
          List.filter_cons_of_neg (by simp [hl])]
      exact ih _
    | false =>
      simp only [cleanStateFile, hl, Bool.false_eq_true, if_false]
      rw [List.filter_cons_of_pos (by simp [hl]), List.filter_cons_of_pos (by simp [hl])]
      rw [ih]

theorem markersFrom_eq_map_range (p : Int) (k m : Nat) :
    markersFrom p k m = (List.range m).map (fun j => markerLine p (k + j)) := by
  induction m generalizing k with
  | zero => rfl
  | succ m ih =>
    rw [markersFrom, List.range_succ_eq_map, List.map_cons, List.map_map, ih]
    refine congrArg₂ _ (by rw [Nat.add_zero]) ?_
    refine List.map_congr_left (fun a _ => ?_)
    simp only [Function.comp_apply]
    exact congrArg (markerLine p) (by omega)

/-- C1: for every list of launcher results and every save period,
`copyAndCleanState` concatenates the per-job state files in submission order
(line count preserved, marker positions preserved, non-marker lines kept
verbatim in order) and rewrites the marker lines to `periodSaveGIE * k` for a
strictly increasing counter `k` starting at 1 across the whole concatenation;
in particular two jobs of three markers each with save period 6 yield exactly
the six markers 6, 12, 18, 24, 30, 36 in that order. -/
theorem copyAndCleanState_mergesTimelines (results : List JobResult) (p : Int)
    (gie : Option (List String)) :
    ((copyAndCleanState results p gie).1.map hasTEq
        = (concatAll (results.map JobResult.stateFile)).map hasTEq)
    ∧ ((copyAndCleanState results p gie).1.filter (fun l => hasTEq l)
        = (List.range
              ((concatAll (results.map JobResult.stateFile)).countP (fun l => hasTEq l))).map
            (fun j => markerLine p (1 + j)))
    ∧ ((copyAndCleanState results p gie).1.filter (fun l => !hasTEq l)
        = (concatAll (results.map JobResult.stateFile)).filter (fun l => !hasTEq l))
    ∧ (copyAndCleanState [jobResA, jobResB] 6 none).1 = mergedExample := by
  refine ⟨cleanStateFile_map_hasTEq p 1 _, ?_, cleanStateFile_filter_nonmarker p 1 _, by decide⟩
  show (cleanStateFile p 1 (concatAll (results.map JobResult.stateFile))).filter _ = _
  rw [cleanStateFile_filter_marker, markersFrom_eq_map_range]

/-- C2 counterexample: with zero actuators the enumeration does not return the
promised single empty vector; writing the lone binary digit of 0 targets index
-1 of an empty row, so `generateListOfPhase` raises `IndexError` (`none`). -/
theorem generateListOfPhase_zeroActuators : generateListOfPhase (2 ^ 0) 0 = none := by decide

/-- C2 (amended to actuator counts 1..6): the enumeration succeeds and yields
exactly `2^n` vectors, strictly increasing in (Hamming weight, base-2 value)
lexicographic order — hence pairwise distinct, with weights non-decreasing and
values strictly increasing inside one weight class — and it contains every
`{0,1}`-vector of length `n`, each exactly once. -/
theorem generateListOfPhase_orderedComplete :
    ∀ n : Nat, 1 ≤ n → n ≤ 6 →
      ∃ l, generateListOfPhase (2 ^ n) n = some l
        ∧ l.length = 2 ^ n
        ∧ strictChain l = true
        ∧ (∀ v ∈ allVecs n, v ∈ l)
        ∧ (∀ v ∈ l, v ∈ allVecs n) := by
  intro n h1 h2
  interval_cases n
  all_goals exact goodPhases_spec _ _ (by decide)

/-- C2 witness: the two-actuator instance of the amended enumeration property. -/
theorem generateListOfPhase_ordered_witness :
    ∃ l, generateListOfPhase (2 ^ 2) 2 = some l
      ∧ l.length = 2 ^ 2
      ∧ strictChain l = true
      ∧ (∀ v ∈ allVecs 2, v ∈ l)
      ∧ (∀ v ∈ l, v ∈ allVecs 2) :=
  generateListOfPhase_orderedComplete 2 (by omega) (by omega)

-- Closed form of the mode-count validation once the modes file has been read.
theorem resolveNbrOfModes_eq (requested : Option Int) (stored avail : Int)
    (file : List (List Char)) (h : checkNodeNbr (some file) = Except.ok avail) :
    resolveNbrOfModes requested stored (some file) =
      (let n1 : Int :=
        match requested with
        | none => stored
        | some v => if v = 0 then stored else v
       let n2 : Int := if n1 = 0 then stored else n1
       let n3 : Int := if n2 = -1 then avail else n2
       if n3 ≤ 0 ∨ avail < n3 then Except.error PyErr.valueError else Except.ok n3) := by
  simp only [resolveNbrOfModes, h]

/-- C3 counterexample: in `phase3`/`phase4`, requesting 0 modes does not raise
the claimed configuration error; the Python falsiness test `not nbrOfModes`
treats 0 like `None`, so with the initial stored sentinel -1 the request
resolves to the available mode count read from the modes file. -/
theorem resolveNbrOfModes_zeroRequest :
    resolveNbrOfModes (some 0) (-1) (some [("NDOF 5").toList]) = Except.ok 5 := by decide

/-- C3 (amended): a request strictly below -1 or strictly above the available
count raises `ValueError` (the spec's `ConfigurationError`); requesting
nothing (`None`) or `0` falls back to the stored count, which with the initial
-1 sentinel resolves to the available count; requesting -1 also resolves to
the available count; an in-range positive request is used as given; a missing
modes file raises `IOError` before any validation. -/
theorem resolveNbrOfModes_validation :
    (∀ (stored : Int) (file : List (List Char)) (avail v : Int),
        checkNodeNbr (some file) = Except.ok avail → v < -1 →
        resolveNbrOfModes (some v) stored (some file) = Except.error PyErr.valueError)
    ∧ (∀ (stored : Int) (file : List (List Char)) (avail v : Int),
        checkNodeNbr (some file) = Except.ok avail → 0 < v → avail < v →
        resolveNbrOfModes (some v) stored (some file) = Except.error PyErr.valueError)
    ∧ (∀ (file : List (List Char)) (avail : Int),
        checkNodeNbr (some file) = Except.ok avail → 0 < avail →
        resolveNbrOfModes none (-1) (some file) = Except.ok avail)
    ∧ (∀ (file : List (List Char)) (avail : Int),
        checkNodeNbr (some file) = Except.ok avail → 0 < avail →
        resolveNbrOfModes (some 0) (-1) (some file) = Except.ok avail)
    ∧ (∀ (stored : Int) (file : List (List Char)) (avail : Int),
        checkNodeNbr (some file) = Except.ok avail → 0 < avail →
        resolveNbrOfModes (some (-1)) stored (some file) = Except.ok avail)
    ∧ (∀ (stored : Int) (file : List (List Char)) (avail v : Int),
        checkNodeNbr (some file) = Except.ok avail → 0 < v → v ≤ avail →
        resolveNbrOfModes (some v) stored (some file) = Except.ok v)
    ∧ (∀ (requested : Option Int) (stored : Int),
        resolveNbrOfModes requested stored none = Except.error PyErr.ioError) := by
  refine ⟨?_, ?_, ?_, ?_, ?_, ?_, ?_⟩
  · intro stored file avail v h hv
    rw [resolveNbrOfModes_eq (some v) stored avail file h]
    have h0 : ¬ v = 0 := by omega
    have h1 : ¬ v = -1 := by omega
    simp only [h0, if_false, h1]
    rw [if_pos (Or.inl (by omega))]
  · intro stored file avail v h hv0 hva
    rw [resolveNbrOfModes_eq (some v) stored avail file h]
    have h0 : ¬ v = 0 := by omega
    have h1 : ¬ v = -1 := by omega
    simp only [h0, if_false, h1]
    rw [if_pos (Or.inr hva)]
  · intro file avail h ha
    rw [resolveNbrOfModes_eq none (-1) avail file h]
    norm_num
    intro hle
    exact absurd hle (by omega)
  · intro file avail h ha
    rw [resolveNbrOfModes_eq (some 0) (-1) avail file h]
    norm_num
    intro hle
    exact absurd hle (by omega)
  · intro stored file avail h ha
    rw [resolveNbrOfModes_eq (some (-1)) stored avail file h]
    norm_num
    intro hle
    exact absurd hle (by omega)
  · intro stored file avail v h hv0 hva
    rw [resolveNbrOfModes_eq (some v) stored avail file h]
    have h0 : ¬ v = 0 := by omega
    have h1 : ¬ v = -1 := by omega
    simp only [h0, if_false, h1]
    rw [if_neg (by omega)]
  · intro requested stored
    simp [resolveNbrOfModes]

/-- C3 witness: the amended validation behaviour on a concrete modes file with
5 available modes. -/
theorem resolveNbrOfModes_validation_witness :
    resolveNbrOfModes (some (-3)) (-1) (some [("NDOF 5").toList]) = Except.error PyErr.valueError
    ∧ resolveNbrOfModes (some 9) (-1) (some [("NDOF 5").toList]) = Except.error PyErr.valueError
    ∧ resolveNbrOfModes none (-1) (some [("NDOF 5").toList]) = Except.ok 5
    ∧ resolveNbrOfModes (some 3) (-1) (some [("NDOF 5").toList]) = Except.ok 3 :=
  ⟨resolveNbrOfModes_validation.1 (-1) _ 5 (-3) (by decide) (by omega),
   resolveNbrOfModes_validation.2.1 (-1) _ 5 9 (by decide) (by omega) (by omega),
   resolveNbrOfModes_validation.2.2.1 _ 5 (by decide) (by omega),
   resolveNbrOfModes_validation.2.2.2.2.2.1 (-1) _ 5 3 (by decide) (by omega) (by omega)⟩

/-- C4 counterexample: `checkNodeNbr` on an absent modes file does not fail
with the claimed missing-artifact error; the `IOError` is caught and printed,
and the initial sentinel is returned, so the call yields `int(-1)`. -/
theorem checkNodeNbr_missingFile : checkNodeNbr none = Except.ok (-1) := rfl

/-- C4 (amended): for every modes file that exists, `checkNodeNbr` strips and
whitespace-splits the first line and returns `int` of the second token (so a
first line `NDOF 37 extra` yields 37); an absent file is caught, printed, and
the sentinel -1 is returned; other read failures propagate (`IndexError` when
the first line has fewer than two tokens, `ValueError` when the second token
is not an integer literal). -/
theorem checkNodeNbr_parsesSecondToken :
    (checkNodeNbr none = Except.ok (-1))
    ∧ (checkNodeNbr (some [("NDOF 37 extra").toList]) = Except.ok 37)
    ∧ (∀ (lines : List (List Char)) (tok : List Char) (v : Int),
        (splitWS (pyStrip (lines.headD []))).get? 1 = some tok →
        pyIntOfTok tok = some v →
        checkNodeNbr (some lines) = Except.ok v)
    ∧ (∀ lines : List (List Char),
        (splitWS (pyStrip (lines.headD []))).get? 1 = none →
        checkNodeNbr (some lines) = Except.error PyErr.indexError)
    ∧ (∀ (lines : List (List Char)) (tok : List Char),
        (splitWS (pyStrip (lines.headD []))).get? 1 = some tok →
        pyIntOfTok tok = none →
        checkNodeNbr (some lines) = Except.error PyErr.valueError) := by
  refine ⟨rfl, by decide, ?_, ?_, ?_⟩
  · intro lines tok v h1 h2
    simp only [checkNodeNbr, h1, h2]
  · intro lines h1
    simp only [checkNodeNbr, h1]
  · intro lines tok h1 h2
    simp only [checkNodeNbr, h1, h2]

/-- C4 witness: the amended parsing behaviour on concrete modes files. -/
theorem checkNodeNbr_parses_witness :
    checkNodeNbr (some [("NDOF 42").toList, ("second line").toList]) = Except.ok 42
    ∧ checkNodeNbr (some [("solo").toList]) = Except.error PyErr.indexError
    ∧ checkNodeNbr (some [("a bb").toList]) = Except.error PyErr.valueError :=
  ⟨checkNodeNbr_parsesSecondToken.2.2.1 _ ("42").toList 42 (by decide) (by decide),
   checkNodeNbr_parsesSecondToken.2.2.2.1 _ (by decide),
   checkNodeNbr_parsesSecondToken.2.2.2.2 _ ("bb").toList (by decide) (by decide)⟩

-- The embedded ceiling agrees with Mathlib's ceiling on rationals.
theorem pyCeilQ_eq_ceil (q : ℚ) : pyCeilQ q = ⌈q⌉ := by
  have h : Rat.floor (-q) = ⌊-q⌋ := rfl
  rw [pyCeilQ, h, Int.floor_neg, neg_neg]

-- The concrete one-actuator budget of the claim evaluates to 89.
theorem setNbIteration_concrete :
    setNbIteration [⟨some 5, some 10, some 40⟩] 0 none = Except.ok 89 := by
  simp only [setNbIteration, nbIterLoop]
  rw [if_neg (by norm_num), if_pos (by norm_num)]
  congr 1
  rw [pyCeilQ_eq_ceil]
  rw [show (((40:ℚ)/5 - 1)*10 + 2*10 - 1) = ((89:Int):ℚ) from by norm_num]
  exact Int.ceil_intCast 89

/-- C5 counterexample: one actuator with increment 5, ramp period 10 and total
range 40 yields an iteration budget of 89, not the claimed 79; the formula
`((40/5)-1)*10 + 2*10 - 1` evaluates to `70 + 20 - 1 = 89`. -/
theorem setNbIteration_example :
    setNbIteration [⟨some 5, some 10, some 40⟩] 0 none = Except.ok 89
    ∧ (Except.ok 89 : Except PyErr Int) ≠ Except.ok 79 :=
  ⟨setNbIteration_concrete, by decide⟩

/-- C5 (amended): with one actuator of increment 5, period 10, range 40 and no
override the budget is `ceil(((40/5)-1)*10 + 2*10 - 1) = 89`; an explicit
override of 50.2 yields `ceil(50.2) = 51` regardless of the actuator specs. -/
theorem setNbIteration_budget :
    (setNbIteration [⟨some 5, some 10, some 40⟩] 0 none = Except.ok 89)
    ∧ (∀ listObj : List AnimParams,
        setNbIteration listObj 0 (some (251 / 5)) = Except.ok 51) := by
  refine ⟨setNbIteration_concrete, fun listObj => ?_⟩
  simp only [setNbIteration]
  rw [if_neg (by norm_num)]
  congr 1
  rw [pyCeilQ_eq_ceil, Int.ceil_eq_iff]
  constructor <;> norm_num

/-- C10: the training-set size is derived solely from the first animated
object, as `int(rangeOfAction/incr)` of that object's parameters (every later
object is ignored), and the constructor fails with `KeyError` when the first
object lacks either parameter. -/
theorem deriveNbTrainingSet_firstOnly :
    (∀ (h : AnimParams) (t1 t2 : List AnimParams),
        deriveNbTrainingSet (h :: t1) = deriveNbTrainingSet (h :: t2))
    ∧ (∀ (h : AnimParams) (t : List AnimParams) (r inc : ℚ),
        h.rangeOfAction = some r → h.incr = some inc → inc ≠ 0 →
        deriveNbTrainingSet (h :: t) = Except.ok (pyTruncQ (r / inc)))
    ∧ (∀ (h : AnimParams) (t : List AnimParams),
        h.rangeOfAction = none ∨ h.incr = none →
        deriveNbTrainingSet (h :: t) = Except.error PyErr.keyError) := by
  refine ⟨fun h t1 t2 => rfl, ?_, ?_⟩
  · intro h t r inc hr hi hz
    obtain ⟨oi, op, oroa⟩ := h
    simp only at hr hi
    subst hr hi
    simp only [deriveNbTrainingSet, setNbTrainingSet]
    rw [if_neg hz]
  · intro h t hcase
    obtain ⟨oi, op, oroa⟩ := h
    rcases hcase with hra | hin
    · simp only at hra
      subst hra
      rfl
    · simp only at hin
      subst hin
      cases oroa <;> rfl

/-- C10 witness: concrete instances of the training-set derivation. -/
theorem deriveNbTrainingSet_witness :
    deriveNbTrainingSet [⟨some 5, some 10, some 40⟩, ⟨none, none, none⟩]
      = deriveNbTrainingSet [⟨some 5, some 10, some 40⟩]
    ∧ deriveNbTrainingSet [⟨some 5, some 10, some 40⟩] = Except.ok (pyTruncQ (40 / 5))
    ∧ deriveNbTrainingSet [⟨none, some 10, some 40⟩] = Except.error PyErr.keyError :=
  ⟨deriveNbTrainingSet_firstOnly.1 ⟨some 5, some 10, some 40⟩ [⟨none, none, none⟩] [],
   deriveNbTrainingSet_firstOnly.2.1 ⟨some 5, some 10, some 40⟩ [] 40 5 rfl rfl (by norm_num),
   deriveNbTrainingSet_firstOnly.2.2 ⟨none, some 10, some 40⟩ [] (Or.inr rfl)⟩

/-- C6 counterexample: supplying all three sub-configs to `addParamWrapper`
does not return them; the body is `pass`, so the previous `paramWrapper` (here
the constructor's `None`) is returned unchanged and the supplied sub-configs
are discarded. -/
theorem addParamWrapper_overridesDiscarded :
    (addParamWrapper rpExample "model/node" true (some cfgF) (some cfgM) (some cfgO)).2 = none
    ∧ (addParamWrapper rpExample "model/node" true (some cfgF) (some cfgM) (some cfgO)).1
        = rpExample :=
  ⟨rfl, rfl⟩

/-- C6 (amended): whenever all three sub-config arguments are truthy
(non-`None`, non-empty), `addParamWrapper` leaves the state untouched and
returns the previously stored wrapper; the supplied sub-configs are ignored
rather than passed through. -/
theorem addParamWrapper_passThroughKeepsPrevious :
    ∀ (st : ReductionParam) (node : String) (prep : Bool) (c1 c2 c3 : Config),
      c1 ≠ [] → c2 ≠ [] → c3 ≠ [] →
      addParamWrapper st node prep (some c1) (some c2) (some c3) = (st, st.paramWrapper) := by
  intro st node prep c1 c2 c3 h1 h2 h3
  have e1 : c1.isEmpty = false := by cases c1 with | nil => exact absurd rfl h1 | cons a l => rfl
  have e2 : c2.isEmpty = false := by cases c2 with | nil => exact absurd rfl h2 | cons a l => rfl
  have e3 : c3.isEmpty = false := by cases c3 with | nil => exact absurd rfl h3 | cons a l => rfl
  simp [addParamWrapper, pyTruthyCfg, e1, e2, e3]

/-- C6 witness: the pass-through case on a state that already holds a wrapper
returns that previous wrapper, not the supplied sub-configs. -/
theorem addParamWrapper_passThrough_witness :
    addParamWrapper rpWithWrapper "otherNode" false (some cfgF) (some cfgM) (some cfgO)
      = (rpWithWrapper, some pwExample) :=
  addParamWrapper_passThroughKeepsPrevious rpWithWrapper "otherNode" false cfgF cfgM cfgO
    (by decide) (by decide) (by decide)

-- Closed form of `k` successive `setFilesName` calls on a state with a wrapper.
theorem iterFilesName_closed :
    ∀ (k : Nat) (st : ReductionParam) (pw : ParamWrapper), st.paramWrapper = some pw →
      iterFilesName k st = Except.ok (appendNamesK st pw k) := by
  intro k
  induction k with
  | zero =>
    intro st pw h
    simp [iterFilesName, appendNamesK]
  | succ k ih =>
    intro st pw h
    rw [iterFilesName]
    simp only [setFilesName, h, Except.bind]
    rw [ih _ pw rfl]
    simp only [appendNamesK, nodeNameOf]
    congr 1
    simp [List.replicate_succ, h]

/-- C7: `setFilesName` is idempotent at the level of name sets: after any
number `k >= 1` of calls each of the five name lists has the same members as
after a single call, and the single call appends exactly one name per kind,
obtained by substituting the trailing path segment of the wrapped node path
into the fixed template of that kind. -/
theorem setFilesName_idempotentNameSets :
    ∀ (st : ReductionParam) (pw : ParamWrapper) (k : Nat),
      st.paramWrapper = some pw → 1 ≤ k →
      ∃ st1 stk, iterFilesName 1 st = Except.ok st1 ∧ iterFilesName k st = Except.ok stk
        ∧ st1.gieFilesNames
            = st.gieFilesNames ++ ["HyperReducedFEMForceField_" ++ nodeNameOf pw ++ "_Gie.txt"]
        ∧ st1.RIDFilesNames = st.RIDFilesNames ++ ["RID_" ++ nodeNameOf pw ++ ".txt"]
        ∧ st1.weightsFilesNames = st.weightsFilesNames ++ ["weight_" ++ nodeNameOf pw ++ ".txt"]
        ∧ st1.savedElementsFilesNames
            = st.savedElementsFilesNames ++ ["elmts_" ++ nodeNameOf pw ++ ".txt"]
        ∧ st1.listActiveNodesFilesNames
            = st.listActiveNodesFilesNames ++ ["listActiveNodes_" ++ nodeNameOf pw ++ ".txt"]
        ∧ (∀ x, x ∈ stk.gieFilesNames ↔ x ∈ st1.gieFilesNames)
        ∧ (∀ x, x ∈ stk.RIDFilesNames ↔ x ∈ st1.RIDFilesNames)
        ∧ (∀ x, x ∈ stk.weightsFilesNames ↔ x ∈ st1.weightsFilesNames)
        ∧ (∀ x, x ∈ stk.savedElementsFilesNames ↔ x ∈ st1.savedElementsFilesNames)
        ∧ (∀ x, x ∈ stk.listActiveNodesFilesNames ↔ x ∈ st1.listActiveNodesFilesNames) := by
  intro st pw k h hk
  have hk0 : k ≠ 0 := by omega
  refine ⟨appendNamesK st pw 1, appendNamesK st pw k,
    iterFilesName_closed 1 st pw h, iterFilesName_closed k st pw h, ?_, ?_, ?_, ?_, ?_,
    ?_, ?_, ?_, ?_, ?_⟩
  all_goals simp [appendNamesK, List.mem_replicate, hk0]

/-- C7 witness: three calls on a concrete wrapped state leave the same name
sets as one call. -/
theorem setFilesName_idempotent_witness :
    ∃ st1 stk, iterFilesName 1 rpWithWrapper = Except.ok st1
      ∧ iterFilesName 3 rpWithWrapper = Except.ok stk
      ∧ st1.gieFilesNames
          = rpWithWrapper.gieFilesNames
            ++ ["HyperReducedFEMForceField_" ++ nodeNameOf pwExample ++ "_Gie.txt"]
      ∧ st1.RIDFilesNames
          = rpWithWrapper.RIDFilesNames ++ ["RID_" ++ nodeNameOf pwExample ++ ".txt"]
      ∧ st1.weightsFilesNames
          = rpWithWrapper.weightsFilesNames ++ ["weight_" ++ nodeNameOf pwExample ++ ".txt"]
      ∧ st1.savedElementsFilesNames
          = rpWithWrapper.savedElementsFilesNames ++ ["elmts_" ++ nodeNameOf pwExample ++ ".txt"]
      ∧ st1.listActiveNodesFilesNames
          = rpWithWrapper.listActiveNodesFilesNames
            ++ ["listActiveNodes_" ++ nodeNameOf pwExample ++ ".txt"]
      ∧ (∀ x, x ∈ stk.gieFilesNames ↔ x ∈ st1.gieFilesNames)
      ∧ (∀ x, x ∈ stk.RIDFilesNames ↔ x ∈ st1.RIDFilesNames)
      ∧ (∀ x, x ∈ stk.weightsFilesNames ↔ x ∈ st1.weightsFilesNames)
      ∧ (∀ x, x ∈ stk.savedElementsFilesNames ↔ x ∈ st1.savedElementsFilesNames)
      ∧ (∀ x, x ∈ stk.listActiveNodesFilesNames ↔ x ∈ st1.listActiveNodesFilesNames) :=
  setFilesName_idempotentNameSets rpWithWrapper pwExample 3 rfl (by omega)

/-- C8: feeding `setListSofaScene` a phase index outside `[0, 2^n)` is meant
to raise the invalid-phase configuration error, but the `raise ValueError`
statement first concatenates its `str` message with the `list` argument, which
in Python 2 raises `TypeError`; at the concrete out-of-range selection `[5]`
on a 4-possibility state the escaping exception is therefore `TypeError`, not
the intended `ValueError`. -/
theorem setListSofaScene_invalidPhase :
    setListSofaScene stRM (some [5]) = Except.error PyErr.typeError := by decide

-- The job-building loop succeeds on valid indices and appends exactly one job
-- per selected phase, in selection order.
theorem sceneLoop_ok (st : RMState) (pts : List Nat) :
    ∀ (p : List Int) (jobs : List SceneJob) (idx : Nat),
      (∀ i ∈ p, 0 ≤ i ∧ i < (st.nbPossibility : Int)) →
      ∃ idx2, sceneLoop st pts jobs idx p
        = Except.ok (jobs ++ p.map (sceneJobOf st pts), idx2) := by
  intro p
  induction p with
  | nil =>
    intro jobs idx _
    exact ⟨idx, by simp [sceneLoop]⟩
  | cons i rest ih =>
    intro jobs idx h
    have hi := h i (List.mem_cons_self i rest)
    have hcond : ¬ ((st.nbPossibility : Int) ≤ i ∨ i < 0) := by omega
    obtain ⟨idx2, hrest⟩ := ih (jobs ++ [sceneJobOf st pts i])
      (if pts = st.phaseNumClass.getD i.toNat []
       then st.phaseNumClass.findIdx (fun x => x == pts) else idx)
      (fun j hj => h j (List.mem_cons_of_mem i hj))
    refine ⟨idx2, ?_⟩
    simp only [sceneLoop]
    rw [if_neg hcond, hrest]
    simp [List.append_assoc]

-- Re-resolving an already-resolved phaseToSave yields the same value.
theorem resolvePhaseToSave_idem (o : Option (List Nat)) (c : List (List Nat))
    (pts : List Nat) (h : resolvePhaseToSave o c = Except.ok pts) :
    resolvePhaseToSave (some pts) c = Except.ok pts := by
  unfold resolvePhaseToSave at h ⊢
  by_cases h0 : o.getD [] = []
  · rw [if_pos h0] at h
    cases c with
    | nil => cases h
    | cons hd tl =>
      have hpts : pts = List.replicate hd.length 0 := by
        injection h with h2
        exact h2.symm
      by_cases hn : (some pts).getD [] = []
      · rw [if_pos hn]
        show Except.ok (List.replicate hd.length 0) = Except.ok pts
        rw [hpts]
      · rw [if_neg hn]
        simp
  · rw [if_neg h0] at h
    have hpts : pts = o.getD [] := by
      injection h with h2
      exact h2.symm
    have hne : ¬ ((some pts).getD [] = []) := by
      simp only [Option.getD_some]
      rw [hpts]
      exact h0
    rw [if_neg hne]
    simp

/-- C9: `setListSofaScene` resets the job list on every call: with a valid
non-empty phase selection it succeeds, produces exactly one job per selected
phase (in selection order, each carrying that phase's vector), and calling it
again with the same selection yields the same job list instead of accumulating
duplicates. -/
theorem setListSofaScene_resets :
    ∀ (st : RMState) (p : List Int), p ≠ [] →
      (∀ i ∈ p, 0 ≤ i ∧ i < (st.nbPossibility : Int)) →
      st.phaseNumClass ≠ [] →
      ∃ st1 st2, setListSofaScene st (some p) = Except.ok st1
        ∧ st1.listSofaScene.length = p.length
        ∧ st1.listSofaScene.map SceneJob.phase
            = p.map (fun i => st.phaseNumClass.getD i.toNat [])
        ∧ setListSofaScene st1 (some p) = Except.ok st2
        ∧ st2.listSofaScene = st1.listSofaScene := by
  intro st p hp hvalid hcls
  obtain ⟨pts, hpts⟩ :
      ∃ pts, resolvePhaseToSave st.phaseToSave st.phaseNumClass = Except.ok pts := by
    unfold resolvePhaseToSave
    by_cases h0 : st.phaseToSave.getD [] = []
    · rw [if_pos h0]
      cases hc : st.phaseNumClass with
      | nil => exact absurd hc hcls
      | cons hd tl => exact ⟨_, rfl⟩
    · rw [if_neg h0]
      exact ⟨_, rfl⟩
  obtain ⟨idx1, hloop1⟩ := sceneLoop_ok st pts p [] st.phaseToSaveIndex hvalid
  set st1 : RMState :=
    { st with
      listSofaScene := p.map (sceneJobOf st pts)
      phaseToSave := some pts
      phaseToSaveIndex := idx1 } with hst1
  have hcall1 : setListSofaScene st (some p) = Except.ok st1 := by
    simp only [setListSofaScene, Option.getD_some]
    rw [if_neg hp]
    simp only [hpts]
    simp only [hloop1]
    simp [hst1]
  have hlen : st1.listSofaScene.length = p.length := by
    simp [hst1]
  have hmap : st1.listSofaScene.map SceneJob.phase
      = p.map (fun i => st.phaseNumClass.getD i.toNat []) := by
    simp [hst1, sceneJobOf, List.map_map, Function.comp]
  have hpts2 : resolvePhaseToSave st1.phaseToSave st1.phaseNumClass = Except.ok pts :=
    resolvePhaseToSave_idem st.phaseToSave st.phaseNumClass pts hpts
  have hvalid1 : ∀ i ∈ p, 0 ≤ i ∧ i < (st1.nbPossibility : Int) := hvalid
  obtain ⟨idx2, hloop2⟩ := sceneLoop_ok st1 pts p [] idx1 hvalid1
  set st2 : RMState :=
    { st1 with
      listSofaScene := p.map (sceneJobOf st1 pts)
      phaseToSave := some pts
      phaseToSaveIndex := idx2 } with hst2
  have hcall2 : setListSofaScene st1 (some p) = Except.ok st2 := by
    simp only [setListSofaScene, Option.getD_some]
    rw [if_neg hp]
    simp only [hpts2]
    simp only [hloop2]
    simp [hst2]
  have hjobs : sceneJobOf st1 pts = sceneJobOf st pts := rfl
  have hfinal : st2.listSofaScene = st1.listSofaScene := by
    simp [hst2, hst1, hjobs]
  exact ⟨st1, st2, hcall1, hlen, hmap, hcall2, hfinal⟩

/-- C9 witness: on the concrete two-actuator state, selecting phases 1 and 3
twice yields the same two-job list both times. -/
theorem setListSofaScene_resets_witness :
    ∃ st1 st2, setListSofaScene stRM (some [1, 3]) = Except.ok st1
      ∧ st1.listSofaScene.length = ([1, 3] : List Int).length
      ∧ st1.listSofaScene.map SceneJob.phase
          = ([1, 3] : List Int).map (fun i => stRM.phaseNumClass.getD i.toNat [])
      ∧ setListSofaScene st1 (some [1, 3]) = Except.ok st2
      ∧ st2.listSofaScene = st1.listSofaScene :=
  setListSofaScene_resets stRM [1, 3] (by decide) (by decide) (by decide)
